import Mathlib

/-
Verification of the Sign-Bridge hand-sign recognition core.

Shallow embedding of:
- the landmark feature extractor of the per-frame handler onResults
  (src/src/components/ModelViewer.jsx, lines 266-345);
- the ISLClassifier wrapper (src/utils/ISLClassifier.js, shipped as
  src/unnamed/part_002): addExample, predict, getExampleCounts,
  save, load, clear;
- the hands-free training session state machine startTrainingSession
  (ModelViewer.jsx, lines 152-176) and the driver state around it
  (isTraining mode flag, timers, frame processing).

JavaScript floats are modelled as rationals.  The third-party kNN
classifier and tensor library internals are not part of the repository;
where a claim depends on them they are modelled from the specification
(weighted nearest-neighbour vote with per-label confidences normalised
into [0,1], deterministic earliest-label tie-break, tensor construction
rejecting a flat array whose length is not an exact multiple of 126).
-/

namespace SignBridge

/-- One tracked hand joint, camera-normalised coordinates. -/
structure LandmarkPoint where
  x : ℚ
  y : ℚ
  z : ℚ
  deriving DecidableEq, Repr

instance : Inhabited LandmarkPoint := ⟨⟨0, 0, 0⟩⟩

/-- One detected hand: its landmark list (21 points in well-formed frames)
and the handedness label string delivered by the tracking collaborator. -/
structure HandObservation where
  landmarks : List LandmarkPoint
  handedness : String
  deriving DecidableEq, Repr

/-- Translate one landmark by a constant 3D offset. -/
def translatePoint (d p : LandmarkPoint) : LandmarkPoint :=
  ⟨p.x + d.x, p.y + d.y, p.z + d.z⟩

/-- Translate every landmark of an observation by a constant 3D offset. -/
def translateObs (d : LandmarkPoint) (obs : HandObservation) : HandObservation :=
  ⟨obs.landmarks.map (translatePoint d), obs.handedness⟩

/-- The write loop of onResults: for i, frameData[offset + i*3 + c] receives
landmark i minus the wrist, coordinate by coordinate
(ModelViewer.jsx lines 296-306). -/
def fillSlot (fd : List ℚ) (off : Nat) (w : LandmarkPoint) :
    Nat → List LandmarkPoint → List ℚ
  | _, [] => fd
  | i, l :: rest =>
      fillSlot
        (((fd.set (off + i * 3) (l.x - w.x)).set
            (off + i * 3 + 1) (l.y - w.y)).set
            (off + i * 3 + 2) (l.z - w.z))
        off w (i + 1) rest

/-- Feature extraction of onResults (ModelViewer.jsx lines 271-306):
126 zeros; when at least one hand is observed, only the FIRST observation
(multiHandLandmarks[0] / multiHandedness[0]) is packed, wrist-relative,
at offset 63 if its handedness label is "Right" and offset 0 otherwise. -/
def onResultsFeatures (frame : List HandObservation) : List ℚ :=
  match frame with
  | [] => List.replicate 126 0
  | obs :: _ =>
      let offset := if obs.handedness = "Right" then 63 else 0
      let wrist := obs.landmarks.headD ⟨0, 0, 0⟩
      fillSlot (List.replicate 126 0) offset wrist 0 obs.landmarks

/-- The online classifier state (the knn-classifier dataset wrapped by
ISLClassifier in src/unnamed/part_002). -/
structure ISLClassifier where
  dataset : List (String × List (List ℚ))
  deriving DecidableEq

/-- A freshly constructed classifier: empty dataset. -/
def initISL : ISLClassifier := ⟨[]⟩

/-- Append an example under a label: existing label keeps its position and
gets the vector appended; a new label is appended at the end
(insertion-order dataset of the kNN classifier). -/
def addToDataset (ds : List (String × List (List ℚ))) (v : List ℚ)
    (l : String) : List (String × List (List ℚ)) :=
  match ds with
  | [] => [(l, [v])]
  | (l0, ex) :: rest =>
      if l0 = l then (l0, ex ++ [v]) :: rest
      else (l0, ex) :: addToDataset rest v l

/-- ISLClassifier.addExample (part_002 lines 22-29). -/
def ISLClassifier.addExample (s : ISLClassifier) (v : List ℚ) (l : String) :
    ISLClassifier :=
  ⟨addToDataset s.dataset v l⟩

/-- ISLClassifier.clear (part_002 lines 84-86): clearAllClasses empties the
dataset. -/
def ISLClassifier.clear (_s : ISLClassifier) : ISLClassifier := ⟨[]⟩

/-- getNumClasses of the kNN classifier: the number of labels present. -/
def ISLClassifier.getNumClasses (s : ISLClassifier) : Nat :=
  s.dataset.length

/-- ISLClassifier.getExampleCounts (part_002 lines 56-58): per-label example
counts, in label insertion order. -/
def ISLClassifier.getExampleCounts (s : ISLClassifier) : List (String × Nat) :=
  s.dataset.map (fun p => (p.1, p.2.length))

/-- Total number of stored examples over all labels. -/
def ISLClassifier.totalExamples (s : ISLClassifier) : Nat :=
  (s.dataset.map (fun p => p.2.length)).sum

/-- Squared euclidean distance between two feature vectors. -/
def distSq (a b : List ℚ) : ℚ :=
  ((a.zip b).map (fun p => (p.1 - p.2) ^ 2)).sum

/-- Modelled from the spec: the contribution of one stored example to its
label's vote; closer neighbours contribute more. -/
def exampleWeight (v e : List ℚ) : ℚ :=
  1 / (1 + distSq v e)

/-- Modelled from the spec: a label's aggregate (unnormalised) vote. -/
def labelWeight (v : List ℚ) (ex : List (List ℚ)) : ℚ :=
  (ex.map (exampleWeight v)).sum

/-- Sum of all labels' votes; used to normalise confidences into [0,1]. -/
def totalWeight (v : List ℚ) (ds : List (String × List (List ℚ))) : ℚ :=
  (ds.map (fun p => labelWeight v p.2)).sum

/-- Modelled from the spec: keep the current best label, replacing it only on
a strictly greater vote, so ties go to the label inserted first. -/
def bestLabelAux (v : List ℚ) (cur : String × ℚ) :
    List (String × List (List ℚ)) → String × ℚ
  | [] => cur
  | (l, ex) :: rest =>
      bestLabelAux v
        (if labelWeight v ex > cur.2 then (l, labelWeight v ex) else cur) rest

/-- Modelled from the spec: the top label of the kNN vote and its
unnormalised score; none on an empty dataset. -/
def bestLabel (v : List ℚ) :
    List (String × List (List ℚ)) → Option (String × ℚ)
  | [] => none
  | (l, ex) :: rest => some (bestLabelAux v (l, labelWeight v ex) rest)

/-- A prediction outcome: {label, confidence}. -/
structure PredictionResult where
  label : String
  confidence : ℚ
  deriving DecidableEq, Repr

/-- The normalised confidence of the top label (0 on an empty dataset). -/
def topConfidence (v : List ℚ) (s : ISLClassifier) : ℚ :=
  match bestLabel v s.dataset with
  | none => 0
  | some p => p.2 / totalWeight v s.dataset

/-- ISLClassifier.predict (part_002 lines 32-53): none when getNumClasses is
zero; otherwise the kNN vote (modelled from the spec), returned only when
the top confidence strictly exceeds 0.8. -/
def ISLClassifier.predict (s : ISLClassifier) (v : List ℚ) :
    Option PredictionResult :=
  if s.getNumClasses = 0 then none
  else
    match bestLabel v s.dataset with
    | none => none
    | some p =>
        let c := p.2 / totalWeight v s.dataset
        if c > 4 / 5 then some ⟨p.1, c⟩ else none

/-- ISLClassifier.save (part_002 lines 61-69): per label, the stored examples
flattened into one flat numeric array, labels in insertion order. -/
def ISLClassifier.save (s : ISLClassifier) : List (String × List ℚ) :=
  s.dataset.map (fun p => (p.1, p.2.foldr (· ++ ·) []))

/-- Split a flat array into consecutive chunks of length n. -/
def chunkList (n : Nat) (l : List ℚ) : List (List ℚ) :=
  if _h : n = 0 ∨ l = [] then []
  else l.take n :: chunkList n (l.drop n)
  termination_by l.length
  decreasing_by
    simp only [not_or] at _h
    have h1 : 0 < n := Nat.pos_of_ne_zero _h.1
    have h2 : l ≠ [] := _h.2
    have h3 : 0 < l.length := List.length_pos.mpr h2
    simp only [List.length_drop]
    omega

/-- Deserialisation errors.  The code path can only raise the generic tensor
shape error thrown inside tf.tensor when the flat length is not an exact
multiple of 126; specMalformedPersistedModel is the DISTINCT deserialisation
error demanded by the specification, which no code path produces. -/
inductive LoadError where
  | tensorShapeError (label : String)
  | specMalformedPersistedModel (label : String)
  deriving DecidableEq, Repr

/-- The forEach body of ISLClassifier.load (part_002 lines 77-79): each
label's flat array becomes a [length/126, 126] tensor; tensor construction
fails on the first label whose length is not an exact multiple of 126. -/
def loadEntries : List (String × List ℚ) →
    Except LoadError (List (String × List (List ℚ)))
  | [] => Except.ok []
  | (l, arr) :: rest =>
      if arr.length % 126 = 0 then
        (loadEntries rest).map (fun ds => (l, chunkList 126 arr) :: ds)
      else Except.error (LoadError.tensorShapeError l)

/-- ISLClassifier.load (part_002 lines 72-81): rebuild every label's tensor,
then replace the whole dataset via setClassifierDataset.  An error thrown
mid-way propagates before setClassifierDataset runs. -/
def ISLClassifier.load (_s : ISLClassifier) (blob : List (String × List ℚ)) :
    Except LoadError ISLClassifier :=
  (loadEntries blob).map (fun ds => ⟨ds⟩)

/-- Run load the way the caller observes it: on success the classifier holds
the new dataset; on an exception the classifier object is left as it was
(setClassifierDataset was never reached). -/
def loadRun (s : ISLClassifier) (blob : List (String × List ℚ)) :
    ISLClassifier × Option LoadError :=
  match s.load blob with
  | Except.ok s2 => (s2, none)
  | Except.error e => (s, some e)

/-- The training session states of the hands-free workflow
(ModelViewer.jsx line 115). -/
inductive TrainingState where
  | idle
  | countdown
  | capturing
  deriving DecidableEq, Repr

/-- The training session controller state: trainingState, activeLabel and
the countdown value (ModelViewer.jsx lines 115-117). -/
structure TrainingSession where
  state : TrainingState
  activeLabel : Option String
  countdown : Int
  deriving DecidableEq, Repr

/-- startTrainingSession (ModelViewer.jsx lines 152-157): a silent no-op
unless the state is idle; from idle it arms the label and starts the
countdown at 3. -/
def startTrainingSession (label : String) (s : TrainingSession) :
    TrainingSession :=
  if s.state ≠ TrainingState.idle then s
  else ⟨TrainingState.countdown, some label, 3⟩

/-- One tick of the countdown interval (ModelViewer.jsx lines 161-175):
decrement the counter; on reaching zero, switch to capturing. -/
def sessionTick (s : TrainingSession) : TrainingSession :=
  if s.state = TrainingState.countdown then
    let c := s.countdown - 1
    if c = 0 then ⟨TrainingState.capturing, s.activeLabel, c⟩
    else ⟨TrainingState.countdown, s.activeLabel, c⟩
  else s

/-- Expiry of the 3-second capture timeout (ModelViewer.jsx lines 169-173):
back to idle with the armed label cleared. -/
def sessionCaptureEnd (s : TrainingSession) : TrainingSession :=
  if s.state = TrainingState.capturing then
    ⟨TrainingState.idle, none, s.countdown⟩
  else s

/-- Bump a label's UI example counter, (prev[label] or 0) + 1
(ModelViewer.jsx lines 319-322). -/
def bumpCount (counts : List (String × Nat)) (l : String) :
    List (String × Nat) :=
  match counts with
  | [] => [(l, 1)]
  | (l0, n) :: rest =>
      if l0 = l then (l0, n + 1) :: rest else (l0, n) :: bumpCount rest l

/-- The frame-processing driver state of ModelViewer: the isTraining mode
flag, the training session, the classifier, the UI per-label counts and the
stream of detection events sent through onHandSignDetected. -/
structure DriverState where
  isTraining : Bool
  session : TrainingSession
  classifier : ISLClassifier
  trainingCounts : List (String × Nat)
  events : List String
  deriving DecidableEq

/-- Which classifier entry points one frame invoked. -/
structure FrameCalls where
  calledAddExample : Bool
  calledPredict : Bool
  deriving DecidableEq, Repr

/-- One call of onResults (ModelViewer.jsx lines 266-345): with no detected
hand nothing happens; otherwise the feature vector is extracted, then either
addExample runs (isTraining set, state capturing, label armed), or predict
runs (isTraining unset) with a detection event on a non-none result, or
nothing runs. -/
def processFrame (d : DriverState) (obs : List HandObservation) :
    DriverState × FrameCalls :=
  if obs.isEmpty then (d, ⟨false, false⟩)
  else
    let fd := onResultsFeatures obs
    if d.isTraining = true ∧ d.session.state = TrainingState.capturing ∧
        d.session.activeLabel.isSome = true then
      let l := d.session.activeLabel.getD ("")
      ({ d with
          classifier := d.classifier.addExample fd l,
          trainingCounts := bumpCount d.trainingCounts l }, ⟨true, false⟩)
    else if d.isTraining = false then
      match d.classifier.predict fd with
      | some r => ({ d with events := d.events ++ [r.label] }, ⟨false, true⟩)
      | none => (d, ⟨false, true⟩)
    else (d, ⟨false, false⟩)

/-- The externally induced driver transitions: clicking the mode toggle
(ModelViewer.jsx lines 398-404), clicking a training button (only rendered
in training mode, lines 420-444), a countdown tick, the capture timeout, and
a delivered camera frame. -/
inductive DriverEvent where
  | toggleMode
  | clickTrain (label : String)
  | tick
  | captureEnd
  | frame (obs : List HandObservation)

/-- Driver small-step transition for one event. -/
def driverStep (d : DriverState) : DriverEvent → DriverState
  | DriverEvent.toggleMode => { d with isTraining := !d.isTraining }
  | DriverEvent.clickTrain l =>
      if d.isTraining = true then
        { d with session := startTrainingSession l d.session }
      else d
  | DriverEvent.tick => { d with session := sessionTick d.session }
  | DriverEvent.captureEnd => { d with session := sessionCaptureEnd d.session }
  | DriverEvent.frame obs => (processFrame d obs).1

/-- The driver at mount: predict mode, idle session, empty classifier. -/
def initDriver : DriverState :=
  ⟨false, ⟨TrainingState.idle, none, 3⟩, initISL, [], []⟩

/-- Run a sequence of driver events from a state. -/
def runEvents (d : DriverState) (evs : List DriverEvent) : DriverState :=
  evs.foldl driverStep d

/-- Every stored example vector has the full feature width 126. -/
def WellFormed (s : ISLClassifier) : Prop :=
  ∀ p ∈ s.dataset, ∀ e ∈ p.2, List.length e = 126

/-- Classifier states reachable through the program: freshly constructed,
extended by addExample with an extracted feature vector (the only addExample
call site, ModelViewer.jsx line 316), emptied by clear, or replaced by a
successful load. -/
inductive Reachable : ISLClassifier → Prop where
  | init : Reachable initISL
  | addFrame (s : ISLClassifier) (frame : List HandObservation) (l : String) :
      Reachable s → Reachable (s.addExample (onResultsFeatures frame) l)
  | clear (s : ISLClassifier) : Reachable s → Reachable s.clear
  | load (s s2 : ISLClassifier) (blob : List (String × List ℚ)) :
      Reachable s → s.load blob = Except.ok s2 → Reachable s2

/-- A left-hand observation whose 21 landmarks sit at the origin. -/
def leftObs : HandObservation :=
  ⟨List.replicate 21 ⟨0, 0, 0⟩, "Left"⟩

/-- A right-hand observation with 21 landmarks: wrist at the origin and
landmark 1 at (1,2,3), the rest at the origin. -/
def rightObs1 : HandObservation :=
  ⟨⟨0, 0, 0⟩ :: ⟨1, 2, 3⟩ :: List.replicate 19 ⟨0, 0, 0⟩, "Right"⟩

/-- A serialized blob whose sole label carries a flat array of length 100,
which is not a multiple of 126. -/
def badBlob : List (String × List ℚ) :=
  [("Hello", List.replicate 100 0)]

/-- The all-zero probe feature vector. -/
def probeVec : List ℚ := List.replicate 126 0

/-- A classifier trained with one example under the label Hello. -/
def oneExample : ISLClassifier := initISL.addExample probeVec ("Hello")

/-- Event run: enter training mode, arm Hello, let the countdown elapse so
capture starts, then toggle back to predict mode mid-session. -/
def c9Events : List DriverEvent :=
  [DriverEvent.toggleMode, DriverEvent.clickTrain ("Hello"), DriverEvent.tick,
   DriverEvent.tick, DriverEvent.tick, DriverEvent.toggleMode]

/-- The driver state reached by c9Events. -/
def c9State : DriverState := runEvents initDriver c9Events

lemma fillSlot_length (w : LandmarkPoint) (off : Nat) :
    ∀ (ls : List LandmarkPoint) (fd : List ℚ) (i : Nat),
      (fillSlot fd off w i ls).length = fd.length := by
  intro ls
  induction ls with
  | nil => intro fd i; rfl
  | cons l t ih =>
      intro fd i
      simp only [fillSlot]
      rw [ih]
      simp [List.length_set]

lemma fillSlot_getElem?_lt (w : LandmarkPoint) (off : Nat) :
    ∀ (ls : List LandmarkPoint) (fd : List ℚ) (i j : Nat),
      j < off + 3 * i → (fillSlot fd off w i ls)[j]? = fd[j]? := by
  intro ls
  induction ls with
  | nil => intro fd i j _; rfl
  | cons l t ih =>
      intro fd i j hj
      simp only [fillSlot]
      rw [ih _ (i + 1) j (by omega)]
      rw [List.getElem?_set_ne (by omega), List.getElem?_set_ne (by omega),
        List.getElem?_set_ne (by omega)]

lemma fillSlot_getElem?_ge (w : LandmarkPoint) (off : Nat) :
    ∀ (ls : List LandmarkPoint) (fd : List ℚ) (i j : Nat),
      off + 3 * i + 3 * ls.length ≤ j →
      (fillSlot fd off w i ls)[j]? = fd[j]? := by
  intro ls
  induction ls with
  | nil => intro fd i j _; rfl
  | cons l t ih =>
      intro fd i j hj
      simp only [List.length_cons] at hj
      simp only [fillSlot]
      rw [ih _ (i + 1) j (by omega)]
      rw [List.getElem?_set_ne (by omega), List.getElem?_set_ne (by omega),
        List.getElem?_set_ne (by omega)]

lemma fillSlot_getElem?_at (w : LandmarkPoint) (off : Nat) :
    ∀ (ls : List LandmarkPoint) (fd : List ℚ) (i k : Nat),
      k < ls.length → fd.length = 126 → off + 3 * (i + ls.length) ≤ 126 →
      (fillSlot fd off w i ls)[off + 3 * (i + k)]? =
          some ((ls.getD k ⟨0, 0, 0⟩).x - w.x) ∧
      (fillSlot fd off w i ls)[off + 3 * (i + k) + 1]? =
          some ((ls.getD k ⟨0, 0, 0⟩).y - w.y) ∧
      (fillSlot fd off w i ls)[off + 3 * (i + k) + 2]? =
          some ((ls.getD k ⟨0, 0, 0⟩).z - w.z) := by
  intro ls
  induction ls with
  | nil => intro fd i k hk; exact absurd hk (by simp)
  | cons l t ih =>
      intro fd i k hk hlen hbound
      simp only [List.length_cons] at hk hbound
      cases k with
      | zero =>
          have hidx : off + 3 * (i + 0) = off + i * 3 := by omega
          simp only [fillSlot, List.getD_cons_zero, hidx]
          refine ⟨?_, ?_, ?_⟩
          · rw [fillSlot_getElem?_lt w off t _ (i + 1) _ (by omega)]
            rw [List.getElem?_set_ne (by omega), List.getElem?_set_ne (by omega)]
            apply List.getElem?_set_eq_of_lt
            simp only [List.length_set, hlen]
            omega
          · rw [fillSlot_getElem?_lt w off t _ (i + 1) _ (by omega)]
            rw [List.getElem?_set_ne (by omega)]
            apply List.getElem?_set_eq_of_lt
            simp only [List.length_set, hlen]
            omega
          · rw [fillSlot_getElem?_lt w off t _ (i + 1) _ (by omega)]
            apply List.getElem?_set_eq_of_lt
            simp only [List.length_set, hlen]
            omega
      | succ k2 =>
          simp only [fillSlot, List.getD_cons_succ]
          have harith : off + 3 * (i + (k2 + 1)) = off + 3 * ((i + 1) + k2) := by
            omega
          rw [harith]
          exact ih _ (i + 1) k2 (by omega) (by simp [List.length_set, hlen])
            (by omega)

lemma fillSlot_map_translate (d w : LandmarkPoint) :
    ∀ (ls : List LandmarkPoint) (fd : List ℚ) (off i : Nat),
      fillSlot fd off (translatePoint d w) i (ls.map (translatePoint d)) =
        fillSlot fd off w i ls := by
  intro ls
  induction ls with
  | nil => intro fd off i; rfl
  | cons l t ih =>
      intro fd off i
      simp only [List.map_cons, fillSlot, translatePoint]
      have hx : l.x + d.x - (w.x + d.x) = l.x - w.x := by ring
      have hy : l.y + d.y - (w.y + d.y) = l.y - w.y := by ring
      have hz : l.z + d.z - (w.z + d.z) = l.z - w.z := by ring
      rw [hx, hy, hz]
      exact ih _ off (i + 1)

lemma onResultsFeatures_length (frame : List HandObservation) :
    (onResultsFeatures frame).length = 126 := by
  cases frame with
  | nil => simp [onResultsFeatures]
  | cons obs rest =>
      simp only [onResultsFeatures]
      rw [fillSlot_length]
      simp

lemma getD_replicate_zero (j : Nat) :
    (List.replicate 126 (0 : ℚ)).getD j 0 = 0 := by
  rw [List.getD_eq_getElem?_getD, List.getElem?_replicate]
  by_cases hj : j < 126
  · rw [if_pos hj]
    rfl
  · rw [if_neg hj]
    rfl

lemma distSq_nonneg (a b : List ℚ) : 0 ≤ distSq a b := by
  apply List.sum_nonneg
  intro x hx
  simp only [List.mem_map] at hx
  obtain ⟨p, _, rfl⟩ := hx
  positivity

lemma exampleWeight_pos (v e : List ℚ) : 0 < exampleWeight v e := by
  unfold exampleWeight
  have h : (0 : ℚ) < 1 + distSq v e := by linarith [distSq_nonneg v e]
  exact div_pos one_pos h

lemma labelWeight_nonneg (v : List ℚ) (ex : List (List ℚ)) :
    0 ≤ labelWeight v ex := by
  apply List.sum_nonneg
  intro x hx
  simp only [List.mem_map] at hx
  obtain ⟨e, _, rfl⟩ := hx
  exact le_of_lt (exampleWeight_pos v e)

lemma totalWeight_nonneg (v : List ℚ) (ds : List (String × List (List ℚ))) :
    0 ≤ totalWeight v ds := by
  apply List.sum_nonneg
  intro x hx
  simp only [List.mem_map] at hx
  obtain ⟨p, _, rfl⟩ := hx
  exact labelWeight_nonneg v p.2

lemma labelWeight_le_totalWeight (v : List ℚ)
    (ds : List (String × List (List ℚ))) (p : String × List (List ℚ))
    (hp : p ∈ ds) : labelWeight v p.2 ≤ totalWeight v ds := by
  apply List.single_le_sum
  · intro x hx
    simp only [List.mem_map] at hx
    obtain ⟨q, _, rfl⟩ := hx
    exact labelWeight_nonneg v q.2
  · exact List.mem_map_of_mem _ hp

lemma bestLabelAux_snd (v : List ℚ) :
    ∀ (ds : List (String × List (List ℚ))) (cur : String × ℚ),
      (bestLabelAux v cur ds).2 = cur.2 ∨
      ∃ p ∈ ds, (bestLabelAux v cur ds).2 = labelWeight v p.2 := by
  intro ds
  induction ds with
  | nil => intro cur; left; rfl
  | cons q rest ih =>
      intro cur
      obtain ⟨l, ex⟩ := q
      simp only [bestLabelAux]
      rcases ih (if labelWeight v ex > cur.2 then (l, labelWeight v ex)
          else cur) with h | ⟨p, hp, hv⟩
      · by_cases hw : labelWeight v ex > cur.2
        · right
          exact ⟨(l, ex), List.mem_cons_self _ _, by rw [h, if_pos hw]⟩
        · left
          rw [h, if_neg hw]
      · right
        exact ⟨p, List.mem_cons_of_mem _ hp, hv⟩

lemma bestLabel_spec (v : List ℚ) (ds : List (String × List (List ℚ)))
    (hne : ds ≠ []) :
    ∃ l w, bestLabel v ds = some (l, w) ∧
      ∃ p ∈ ds, w = labelWeight v p.2 := by
  cases ds with
  | nil => exact absurd rfl hne
  | cons q rest =>
      obtain ⟨l0, ex0⟩ := q
      refine ⟨(bestLabelAux v (l0, labelWeight v ex0) rest).1,
        (bestLabelAux v (l0, labelWeight v ex0) rest).2, by simp [bestLabel], ?_⟩
      rcases bestLabelAux_snd v rest (l0, labelWeight v ex0) with h | ⟨p, hp, hv⟩
      · exact ⟨(l0, ex0), List.mem_cons_self _ _, h⟩
      · exact ⟨p, List.mem_cons_of_mem _ hp, hv⟩

lemma foldr_append_length (ex : List (List ℚ))
    (h : ∀ e ∈ ex, e.length = 126) :
    (ex.foldr (· ++ ·) []).length = 126 * ex.length := by
  induction ex with
  | nil => rfl
  | cons e t ih =>
      simp only [List.foldr_cons, List.length_append, List.length_cons]
      rw [h e (List.mem_cons_self _ _),
        ih (fun x hx => h x (List.mem_cons_of_mem _ hx))]
      ring

lemma chunkList_foldr (ex : List (List ℚ))
    (h : ∀ e ∈ ex, e.length = 126) :
    chunkList 126 (ex.foldr (· ++ ·) []) = ex := by
  induction ex with
  | nil =>
      rw [chunkList]
      simp
  | cons e t ih =>
      have he : e.length = 126 := h e (List.mem_cons_self _ _)
      have hene : e ≠ [] := by
        intro hc
        rw [hc] at he
        exact absurd he (by simp)
      simp only [List.foldr_cons]
      rw [chunkList]
      have hne : ¬(126 = 0 ∨ e ++ t.foldr (· ++ ·) [] = []) := by
        push_neg
        refine ⟨by norm_num, ?_⟩
        simp only [ne_eq, List.append_eq_nil]
        intro hc
        exact hene hc.1
      rw [dif_neg hne, List.take_left' he, List.drop_left' he,
        ih (fun x hx => h x (List.mem_cons_of_mem _ hx))]

lemma chunkList_mem_len_fuel :
    ∀ (m : Nat) (l : List ℚ), l.length ≤ m → l.length % 126 = 0 →
      ∀ e ∈ chunkList 126 l, e.length = 126 := by
  intro m
  induction m with
  | zero =>
      intro l hl _ e he
      have : l = [] := List.length_eq_zero.mp (by omega)
      rw [this, chunkList] at he
      simp at he
  | succ m ih =>
      intro l hl hmod e he
      by_cases hnil : l = []
      · rw [hnil, chunkList] at he
        simp at he
      · have hpos : 0 < l.length := List.length_pos.mpr hnil
        have hge : 126 ≤ l.length := by omega
        rw [chunkList, dif_neg (by push_neg; exact ⟨by norm_num, hnil⟩)] at he
        rcases List.mem_cons.mp he with rfl | he2
        · simp only [List.length_take]
          omega
        · refine ih (l.drop 126) ?_ ?_ e he2
          · simp only [List.length_drop]
            omega
          · simp only [List.length_drop]
            omega

lemma chunkList_mem_len (l : List ℚ) (hmod : l.length % 126 = 0) :
    ∀ e ∈ chunkList 126 l, e.length = 126 :=
  chunkList_mem_len_fuel l.length l (le_refl _) hmod

lemma loadEntries_save (ds : List (String × List (List ℚ)))
    (h : ∀ p ∈ ds, ∀ e ∈ p.2, e.length = 126) :
    loadEntries (ds.map (fun p => (p.1, p.2.foldr (· ++ ·) []))) =
      Except.ok ds := by
  induction ds with
  | nil => rfl
  | cons p t ih =>
      obtain ⟨l, ex⟩ := p
      have hex : ∀ e ∈ ex, e.length = 126 := fun e he =>
        h (l, ex) (List.mem_cons_self _ _) e he
      simp only [List.map_cons, loadEntries]
      rw [if_pos (by rw [foldr_append_length ex hex]; exact Nat.mul_mod_right _ _)]
      rw [ih (fun q hq e he => h q (List.mem_cons_of_mem _ hq) e he)]
      rw [chunkList_foldr ex hex]
      rfl

lemma loadEntries_wf :
    ∀ (blob : List (String × List ℚ)) (ds : List (String × List (List ℚ))),
      loadEntries blob = Except.ok ds →
      ∀ p ∈ ds, ∀ e ∈ p.2, e.length = 126 := by
  intro blob
  induction blob with
  | nil =>
      intro ds hds
      simp only [loadEntries] at hds
      cases hds
      intro p hp
      simp at hp
  | cons q rest ih =>
      intro ds hds
      obtain ⟨l, arr⟩ := q
      simp only [loadEntries] at hds
      by_cases hmod : arr.length % 126 = 0
      · rw [if_pos hmod] at hds
        cases hrest : loadEntries rest with
        | error e => rw [hrest] at hds; exact absurd hds (by simp [Except.map])
        | ok ds2 =>
            rw [hrest] at hds
            simp only [Except.map] at hds
            cases hds
            intro p hp
            rcases List.mem_cons.mp hp with rfl | hp2
            · intro e he
              exact chunkList_mem_len arr hmod e he
            · exact ih ds2 hrest p hp2
      · rw [if_neg hmod] at hds
        exact absurd hds (by simp)

lemma addToDataset_wf (v : List ℚ) (l : String) (hv : v.length = 126) :
    ∀ (ds : List (String × List (List ℚ))),
      (∀ p ∈ ds, ∀ e ∈ p.2, e.length = 126) →
      ∀ p ∈ addToDataset ds v l, ∀ e ∈ p.2, e.length = 126 := by
  intro ds
  induction ds with
  | nil =>
      intro _ p hp
      simp only [addToDataset, List.mem_singleton] at hp
      subst hp
      intro e he
      simp only [List.mem_singleton] at he
      subst he
      exact hv
  | cons q rest ih =>
      intro hwf p hp
      obtain ⟨l0, ex⟩ := q
      simp only [addToDataset] at hp
      by_cases hl : l0 = l
      · rw [if_pos hl] at hp
        rcases List.mem_cons.mp hp with rfl | hp2
        · intro e he
          rcases List.mem_append.mp he with he2 | he2
          · exact hwf (l0, ex) (List.mem_cons_self _ _) e he2
          · rw [List.mem_singleton.mp he2]
            exact hv
        · exact hwf p (List.mem_cons_of_mem _ hp2)
      · rw [if_neg hl] at hp
        rcases List.mem_cons.mp hp with rfl | hp2
        · exact hwf (l0, ex) (List.mem_cons_self _ _)
        · exact ih (fun q2 hq2 => hwf q2 (List.mem_cons_of_mem _ hq2)) p hp2

lemma reachable_wellFormed (s : ISLClassifier) (h : Reachable s) :
    WellFormed s := by
  induction h with
  | init =>
      intro p hp
      simp [initISL] at hp
  | addFrame s2 frame l _ ih =>
      intro p hp
      exact addToDataset_wf (onResultsFeatures frame) l
        (onResultsFeatures_length frame) s2.dataset ih p hp
  | clear s2 _ _ =>
      intro p hp
      simp [ISLClassifier.clear] at hp
  | load s2 s3 blob _ hload _ =>
      intro p hp
      unfold ISLClassifier.load at hload
      cases hblob : loadEntries blob with
      | error e => rw [hblob] at hload; exact absurd hload (by simp [Except.map])
      | ok ds =>
          rw [hblob] at hload
          simp only [Except.map] at hload
          cases hload
          exact loadEntries_wf blob ds hblob p hp

lemma predict_eq_of_bestLabel (s : ISLClassifier) (v : List ℚ) (l : String)
    (w : ℚ) (hne : s.dataset ≠ [])
    (hbl : bestLabel v s.dataset = some (l, w)) :
    s.predict v = if w / totalWeight v s.dataset > 4 / 5
      then some ⟨l, w / totalWeight v s.dataset⟩ else none := by
  have hg : ¬(s.getNumClasses = 0) := by
    unfold ISLClassifier.getNumClasses
    simpa [List.length_eq_zero] using hne
  unfold ISLClassifier.predict
  rw [if_neg hg, hbl]

/-- C1: evaluation at the failing two-hand frame.  The extractor packs only
the FIRST observed hand: with a Left first observation and a Right second
observation whose landmark 1 sits at (1,2,3), the Right slot [63,126) of the
produced feature vector stays entirely zero - the second hand was never
packed - although the same Right observation alone fills index 66 with 1. -/
theorem C1_second_hand_ignored :
    (onResultsFeatures [leftObs, rightObs1]).getD 66 0 = 0 ∧
    (onResultsFeatures [leftObs, rightObs1]).getD 67 0 = 0 ∧
    (onResultsFeatures [leftObs, rightObs1]).getD 68 0 = 0 ∧
    (onResultsFeatures [rightObs1]).getD 66 0 = 1 := by
  have hsne : ("Left" : String) ≠ "Right" := by decide
  have hfeatL : onResultsFeatures [leftObs, rightObs1] =
      fillSlot (List.replicate 126 0) 0 (leftObs.landmarks.headD ⟨0, 0, 0⟩)
        0 leftObs.landmarks := by
    simp only [onResultsFeatures, leftObs]
    rw [if_neg hsne]
  have hlenL : leftObs.landmarks.length = 21 := by simp [leftObs]
  have hzero : ∀ j, 63 ≤ j →
      (onResultsFeatures [leftObs, rightObs1]).getD j 0 = 0 := by
    intro j hj1
    rw [hfeatL, List.getD_eq_getElem?_getD,
      fillSlot_getElem?_ge _ 0 leftObs.landmarks _ 0 j (by rw [hlenL]; omega),
      ← List.getD_eq_getElem?_getD]
    exact getD_replicate_zero j
  refine ⟨hzero 66 (by norm_num), hzero 67 (by norm_num),
    hzero 68 (by norm_num), ?_⟩
  have hfeat : onResultsFeatures [rightObs1] =
      fillSlot (List.replicate 126 0) 63 (rightObs1.landmarks.headD ⟨0, 0, 0⟩)
        0 rightObs1.landmarks := by
    simp only [onResultsFeatures, rightObs1]
    norm_num
  have hlen : rightObs1.landmarks.length = 21 := by simp [rightObs1]
  have h3 := fillSlot_getElem?_at (rightObs1.landmarks.headD ⟨0, 0, 0⟩) 63
    rightObs1.landmarks (List.replicate 126 0) 0 1 (by simp [hlen])
    (by simp) (by simp [hlen])
  have hidx : 63 + 3 * (0 + 1) = 66 := by norm_num
  rw [hidx] at h3
  rw [hfeat, List.getD_eq_getElem?_getD, h3.1]
  simp only [rightObs1, List.getD_cons_succ, List.getD_cons_zero,
    List.headD_cons, Option.getD_some]
  norm_num

/-- C2: loading a blob whose label Hello carries a flat array of length 100
(not a multiple of 126) fails with the generic tensor shape error raised
inside tensor construction, not with the distinct MalformedPersistedModel
deserialization error the specification requires, and the classifier keeps
its previous dataset whatever it was. -/
theorem C2_load_bad_length_generic_error (s : ISLClassifier) :
    loadRun s badBlob = (s, some (LoadError.tensorShapeError ("Hello"))) ∧
    LoadError.tensorShapeError ("Hello") ≠
      LoadError.specMalformedPersistedModel ("Hello") := by
  constructor
  · have h : loadEntries badBlob =
        Except.error (LoadError.tensorShapeError ("Hello")) := by
      simp [badBlob, loadEntries]
    unfold loadRun ISLClassifier.load
    rw [h]
    rfl
  · decide

/-- C3: save/load round-trip law.  For every reachable classifier dataset,
loading the saved blob into a fresh classifier succeeds and reproduces the
dataset exactly, hence identical getExampleCounts and identical predict
outcomes for every probe vector. -/
theorem C3_save_load_roundtrip (s : ISLClassifier) (h : Reachable s) :
    ISLClassifier.load initISL s.save = Except.ok s ∧
    ∀ s2, ISLClassifier.load initISL s.save = Except.ok s2 →
      s2.getExampleCounts = s.getExampleCounts ∧
      ∀ v, s2.predict v = s.predict v := by
  have hwf : WellFormed s := reachable_wellFormed s h
  have h1 : ISLClassifier.load initISL s.save = Except.ok s := by
    unfold ISLClassifier.load ISLClassifier.save
    rw [loadEntries_save s.dataset hwf]
    rfl
  refine ⟨h1, fun s2 h2 => ?_⟩
  rw [h1] at h2
  have h3 : s = s2 := by
    injection h2
  subst h3
  exact ⟨rfl, fun v => rfl⟩

/-- C3 witness: the round trip evaluated on the concrete reachable
classifier holding one Hello example. -/
theorem C3_witness :
    ISLClassifier.load initISL oneExample.save = Except.ok oneExample :=
  (C3_save_load_roundtrip oneExample
    (Reachable.addFrame initISL [] ("Hello") Reachable.init)).1

/-- C4: predict returns none whenever the dataset holds zero total examples,
in particular on a freshly created classifier and immediately after clear;
the outcome is the ordinary none, not an error. -/
theorem C4_predict_empty_none (s : ISLClassifier) (v : List ℚ) :
    (s.totalExamples = 0 → s.predict v = none) ∧
    initISL.predict v = none ∧ s.clear.predict v = none := by
  refine ⟨?_, rfl, rfl⟩
  intro h
  cases hds : s.dataset with
  | nil =>
      unfold ISLClassifier.predict ISLClassifier.getNumClasses
      rw [hds]
      rfl
  | cons q rest =>
      have hne : s.dataset ≠ [] := by rw [hds]; simp
      obtain ⟨l, w, hbl, p, hp, hw⟩ := bestLabel_spec v s.dataset hne
      have hw0 : w = 0 := by
        rw [hw]
        have hlen : p.2.length = 0 := by
          unfold ISLClassifier.totalExamples at h
          exact List.sum_eq_zero_iff.mp h p.2.length
            (List.mem_map_of_mem _ hp)
        rw [List.length_eq_zero.mp hlen]
        rfl
      rw [predict_eq_of_bestLabel s v l w hne hbl, hw0, zero_div,
        if_neg (by norm_num)]

/-- C4 witness: the freshly created classifier has zero total examples and
predict on the all-zero probe returns none. -/
theorem C4_witness : initISL.predict probeVec = none :=
  (C4_predict_empty_none initISL probeVec).1 rfl

/-- C5: on a non-empty dataset predict returns a result exactly when the top
confidence strictly exceeds 0.8; every returned result carries that top
confidence, which lies in (0.8, 1]. -/
theorem C5_confidence_gate (s : ISLClassifier) (v : List ℚ)
    (h : s.dataset ≠ []) :
    (s.predict v = none ↔ topConfidence v s ≤ 4 / 5) ∧
    ∀ r, s.predict v = some r →
      r.confidence = topConfidence v s ∧ 4 / 5 < r.confidence ∧
      r.confidence ≤ 1 := by
  obtain ⟨l, w, hbl, p, hp, hw⟩ := bestLabel_spec v s.dataset h
  have htc : topConfidence v s = w / totalWeight v s.dataset := by
    unfold topConfidence
    rw [hbl]
  have hpred := predict_eq_of_bestLabel s v l w h hbl
  constructor
  · rw [hpred, htc]
    by_cases hgt : w / totalWeight v s.dataset > 4 / 5
    · rw [if_pos hgt]
      exact iff_of_false (by simp) (not_le.mpr hgt)
    · rw [if_neg hgt]
      exact iff_of_true rfl (not_lt.mp hgt)
  · intro r hr
    rw [hpred] at hr
    by_cases hgt : w / totalWeight v s.dataset > 4 / 5
    · rw [if_pos hgt] at hr
      have hr2 : (⟨l, w / totalWeight v s.dataset⟩ : PredictionResult) = r := by
        injection hr
      have hwle : w ≤ totalWeight v s.dataset := by
        rw [hw]
        exact labelWeight_le_totalWeight v s.dataset p hp
      have hone : w / totalWeight v s.dataset ≤ 1 := by
        rcases eq_or_lt_of_le (totalWeight_nonneg v s.dataset) with ht0 | htpos
        · rw [← ht0, div_zero]
          norm_num
        · exact (div_le_one htpos).mpr hwle
      rw [← hr2]
      exact ⟨htc.symm, hgt, hone⟩
    · rw [if_neg hgt] at hr
      exact absurd hr (by simp)

/-- C5 witness: the one-example classifier probed with its own training
vector; the gate instance of the theorem at this concrete input. -/
theorem C5_witness :
    (oneExample.predict probeVec = none ↔
      topConfidence probeVec oneExample ≤ 4 / 5) :=
  (C5_confidence_gate oneExample probeVec (by decide)).1

/-- C6: wrist-relative translation invariance.  Translating every landmark
of the observed hand by one constant 3D offset leaves the extracted
FeatureVector unchanged. -/
theorem C6_translation_invariance (obs : HandObservation)
    (rest : List HandObservation) (d : LandmarkPoint) :
    onResultsFeatures (translateObs d obs :: rest) =
      onResultsFeatures (obs :: rest) := by
  simp only [onResultsFeatures, translateObs]
  cases hl : obs.landmarks with
  | nil => simp
  | cons l0 t =>
      simp only [List.map_cons, List.headD_cons]
      exact fillSlot_map_translate d l0 (l0 :: t) _ _ 0

/-- C7: a frame with exactly one observation tagged Right yields zeros at
indices [0,63) and the wrist-relative hand data at [63,126); a Left-only
frame yields the mirror image (data at [0,63), zeros at [63,126)). -/
theorem C7_single_hand_slots (obs : HandObservation)
    (h21 : obs.landmarks.length = 21) :
    (obs.handedness = "Right" →
      (∀ j, j < 63 → (onResultsFeatures [obs]).getD j 0 = 0) ∧
      (∀ k, k < 21 →
        (onResultsFeatures [obs]).getD (63 + 3 * k) 0 =
          (obs.landmarks.getD k ⟨0, 0, 0⟩).x -
            (obs.landmarks.headD ⟨0, 0, 0⟩).x ∧
        (onResultsFeatures [obs]).getD (63 + 3 * k + 1) 0 =
          (obs.landmarks.getD k ⟨0, 0, 0⟩).y -
            (obs.landmarks.headD ⟨0, 0, 0⟩).y ∧
        (onResultsFeatures [obs]).getD (63 + 3 * k + 2) 0 =
          (obs.landmarks.getD k ⟨0, 0, 0⟩).z -
            (obs.landmarks.headD ⟨0, 0, 0⟩).z)) ∧
    (obs.handedness = "Left" →
      (∀ k, k < 21 →
        (onResultsFeatures [obs]).getD (3 * k) 0 =
          (obs.landmarks.getD k ⟨0, 0, 0⟩).x -
            (obs.landmarks.headD ⟨0, 0, 0⟩).x ∧
        (onResultsFeatures [obs]).getD (3 * k + 1) 0 =
          (obs.landmarks.getD k ⟨0, 0, 0⟩).y -
            (obs.landmarks.headD ⟨0, 0, 0⟩).y ∧
        (onResultsFeatures [obs]).getD (3 * k + 2) 0 =
          (obs.landmarks.getD k ⟨0, 0, 0⟩).z -
            (obs.landmarks.headD ⟨0, 0, 0⟩).z) ∧
      (∀ j, 63 ≤ j → j < 126 → (onResultsFeatures [obs]).getD j 0 = 0)) := by
  constructor
  · intro hr
    have hfeat : onResultsFeatures [obs] =
        fillSlot (List.replicate 126 0) 63 (obs.landmarks.headD ⟨0, 0, 0⟩) 0
          obs.landmarks := by
      simp only [onResultsFeatures, hr]
      norm_num
    constructor
    · intro j hj
      rw [hfeat, List.getD_eq_getElem?_getD,
        fillSlot_getElem?_lt _ 63 obs.landmarks _ 0 j (by omega),
        ← List.getD_eq_getElem?_getD]
      exact getD_replicate_zero j
    · intro k hk
      have h3 := fillSlot_getElem?_at (obs.landmarks.headD ⟨0, 0, 0⟩) 63
        obs.landmarks (List.replicate 126 0) 0 k (by omega) (by simp)
        (by simp [h21])
      have hidx : 63 + 3 * (0 + k) = 63 + 3 * k := by omega
      rw [hidx] at h3
      refine ⟨?_, ?_, ?_⟩ <;> rw [hfeat, List.getD_eq_getElem?_getD]
      · rw [h3.1]
        rfl
      · rw [h3.2.1]
        rfl
      · rw [h3.2.2]
        rfl
  · intro hl
    have hsne : obs.handedness ≠ "Right" := by
      rw [hl]
      decide
    have hfeat : onResultsFeatures [obs] =
        fillSlot (List.replicate 126 0) 0 (obs.landmarks.headD ⟨0, 0, 0⟩) 0
          obs.landmarks := by
      simp only [onResultsFeatures]
      rw [if_neg hsne]
    constructor
    · intro k hk
      have h3 := fillSlot_getElem?_at (obs.landmarks.headD ⟨0, 0, 0⟩) 0
        obs.landmarks (List.replicate 126 0) 0 k (by omega) (by simp)
        (by simp [h21])
      have hidx : 0 + 3 * (0 + k) = 3 * k := by omega
      rw [hidx] at h3
      have hidy : 0 + 3 * (0 + k) + 1 = 3 * k + 1 := by omega
      have hidz : 0 + 3 * (0 + k) + 2 = 3 * k + 2 := by omega
      refine ⟨?_, ?_, ?_⟩ <;> rw [hfeat, List.getD_eq_getElem?_getD]
      · rw [h3.1]
        rfl
      · rw [h3.2.1]
        rfl
      · rw [h3.2.2]
        rfl
    · intro j hj1 _
      rw [hfeat, List.getD_eq_getElem?_getD,
        fillSlot_getElem?_ge _ 0 obs.landmarks _ 0 j (by omega),
        ← List.getD_eq_getElem?_getD]
      exact getD_replicate_zero j

/-- C7 witness: the concrete Right-only frame built from rightObs1; index 5
of its feature vector, inside the Left slot, is zero. -/
theorem C7_witness : (onResultsFeatures [rightObs1]).getD 5 0 = 0 :=
  ((C7_single_hand_slots rightObs1 (by simp [rightObs1])).1 rfl).1 5
    (by norm_num)

/-- C8: startTrainingSession issued while the session is in Countdown or
Capturing, whatever label is armed, is a silent no-op: state, active label
and countdown value are all unchanged. -/
theorem C8_startSession_noop (L : String) (s : TrainingSession)
    (h : s.state = TrainingState.countdown ∨
      s.state = TrainingState.capturing) :
    startTrainingSession L s = s := by
  unfold startTrainingSession
  rcases h with h | h <;>
    rw [if_pos (show s.state ≠ TrainingState.idle by rw [h]; decide)]

/-- C8 witness: the no-op evaluated on a concrete capturing session armed
with the label Yes. -/
theorem C8_witness :
    startTrainingSession ("Hello") ⟨TrainingState.capturing, some ("Yes"), 0⟩ =
      ⟨TrainingState.capturing, some ("Yes"), 0⟩ :=
  C8_startSession_noop ("Hello") _ (Or.inr rfl)

/-- C9 counterexample: entering training mode, arming Hello, letting the
countdown elapse into capture, then toggling the mode flag off reaches a
driver state whose session is Capturing while isTraining is false; there a
delivered one-hand frame makes the handler invoke classifier.predict even
though the training session is not Idle. -/
theorem C9_predict_fires_while_capturing :
    c9State.session.state = TrainingState.capturing ∧
    c9State.isTraining = false ∧
    (processFrame c9State [rightObs1]).2.calledPredict = true := by
  refine ⟨by decide, by decide, by decide⟩

/-- C9 amended: prediction is suppressed exactly through the caller's
isTraining mode flag: whenever a frame invokes classifier.predict the flag
is false.  With the flag kept on for the whole session the contract holds,
but toggling the flag off mid-session lets predict run while the training
session is still Countdown or Capturing. -/
theorem C9_predict_only_in_predict_mode (d : DriverState)
    (obs : List HandObservation)
    (h : (processFrame d obs).2.calledPredict = true) :
    d.isTraining = false := by
  simp only [processFrame] at h
  by_cases he : obs.isEmpty
  · rw [if_pos he] at h
    exact absurd h (by simp)
  · rw [if_neg he] at h
    by_cases h2 : d.isTraining = true ∧
        d.session.state = TrainingState.capturing ∧
        d.session.activeLabel.isSome = true
    · rw [if_pos h2] at h
      exact absurd h (by simp)
    · rw [if_neg h2] at h
      by_cases h3 : d.isTraining = false
      · exact h3
      · rw [if_neg h3] at h
        exact absurd h (by simp)

/-- C9 amended witness: the initial driver state processing a one-hand frame
does invoke predict, and the theorem concludes its mode flag is false. -/
theorem C9_witness : initDriver.isTraining = false :=
  C9_predict_only_in_predict_mode initDriver [rightObs1] (by decide)

/-- C10: a frame delivered with zero detected hands is a complete no-op,
whatever the driver state: addExample and predict are not invoked, and the
classifier dataset, the UI per-label counts and the detection-event stream
are unchanged. -/
theorem C10_empty_frame_noop (d : DriverState) :
    processFrame d [] = (d, ⟨false, false⟩) ∧
    (processFrame d []).1.classifier = d.classifier ∧
    (processFrame d []).1.trainingCounts = d.trainingCounts ∧
    (processFrame d []).1.events = d.events :=
  ⟨rfl, rfl, rfl, rfl⟩

end SignBridge
